import Mathlib

/-!
Verification of `scripts/enable_hourly_updates.py`.

The script is embedded shallowly: pure string processing becomes Lean
functions over `List Char`, the effectful `main` becomes a function from an
environment (`World`: filesystem contents, remote responses, encryption
randomness) to a run result (exit code, ordered event trace, migration
write).  Machine-level library calls that the script relies on (UTF-8
encoding, base64, libsodium sealed boxes) are given executable models.
-/

/-! ## Python string helpers used by `get_repo_from_config` -/

/-- ASCII whitespace recognised by Python `str.strip()` (space, tab, LF, CR,
vertical tab, form feed). -/
def isSpaceChar (c : Char) : Bool :=
  c.toNat = 32 || c.toNat = 9 || c.toNat = 10 || c.toNat = 13 ||
  c.toNat = 11 || c.toNat = 12

/-- The characters stripped by `repo.strip(String.quoteChars)` in the script:
double quote (34) and single quote (39). -/
def isQuoteChar (c : Char) : Bool :=
  c.toNat = 34 || c.toNat = 39

/-- Python `str.strip(chars)`: drop characters satisfying `p` from both
ends. -/
def stripChars (p : Char → Bool) (cs : List Char) : List Char :=
  ((cs.dropWhile p).reverse.dropWhile p).reverse

/-- Python `content.split(newline)`: split a character list at every LF
(byte 10), keeping empty segments. -/
def splitNL : List Char → List (List Char)
  | [] => [[]]
  | c :: r =>
    if c.toNat = 10 then [] :: splitNL r
    else
      match splitNL r with
      | [] => [[c]]
      | l :: ls => (c :: l) :: ls

/-- Python `line.startswith(key)`: the first argument is the key. -/
def startsWithKey : List Char → List Char → Bool
  | [], _ => true
  | _ :: _, [] => false
  | p :: ps, c :: cs => p == c && startsWithKey ps cs

/-- Python `line.split(eq, 1)`: `none` when no `=` occurs (one part),
otherwise the text before and after the first `=` (byte 61). -/
def splitFirstEq : List Char → Option (List Char × List Char)
  | [] => none
  | c :: r =>
    if c.toNat = 61 then some ([], r)
    else
      match splitFirstEq r with
      | none => none
      | some (a, b) => some (c :: a, b)

/-- The placeholder value rejected by `get_repo_from_config`. -/
def repoPlaceholder : List Char := "YOUR_GITHUB_USERNAME/gamecache".toList

/-- The scanning loop of `get_repo_from_config` over the config lines:
strip the line, check the `github_repo` key by prefix, split at the first
`=`, strip whitespace then quotes from the value, and accept it unless it
is empty or the placeholder; otherwise keep scanning. -/
def scanLines : List (List Char) → Option (List Char)
  | [] => none
  | ln :: rest =>
    let l := stripChars isSpaceChar ln
    if startsWithKey "github_repo".toList l then
      match splitFirstEq l with
      | some (_, v) =>
        let repo := stripChars isQuoteChar (stripChars isSpaceChar v)
        if repo ≠ [] ∧ repo ≠ repoPlaceholder then some repo
        else scanLines rest
      | none => scanLines rest
    else scanLines rest

/-- Filesystem state of `config.ini` as seen by `get_repo_from_config`:
missing, present but failing to open/read (the swallowed exception), or
present with text content. -/
inductive ConfigState
  | absent
  | unreadable
  | content (s : String)

/-- `get_repo_from_config` from the script: `None` when the file is absent,
when reading raises, or when no acceptable `github_repo` line is found. -/
def get_repo_from_config : ConfigState → Option String
  | .absent => none
  | .unreadable => none
  | .content s => (scanLines (splitNL s.toList)).map String.mk

/-! ## UTF-8, base64, and the sealed box used by `encrypt_secret` -/

/-- UTF-8 encoding of one code point (`secret_value.encode(utf8)` acts
per character). -/
def utf8EncodeChar (n : Nat) : List Nat :=
  if n < 0x80 then [n]
  else if n < 0x800 then [0xC0 + n / 64, 0x80 + n % 64]
  else if n < 0x10000 then
    [0xE0 + n / 4096, 0x80 + n / 64 % 64, 0x80 + n % 64]
  else
    [0xF0 + n / 262144, 0x80 + n / 4096 % 64, 0x80 + n / 64 % 64,
     0x80 + n % 64]

/-- UTF-8 encoding of a character list. -/
def utf8List : List Char → List Nat
  | [] => []
  | c :: r => utf8EncodeChar c.toNat ++ utf8List r

/-- UTF-8 bytes of a string. -/
def utf8Bytes (s : String) : List Nat := utf8List s.data

/-- The standard base64 alphabet. -/
def base64Table : List Char :=
  "ABCDEFGHIJKLMNOPQRSTUVWXYZabcdefghijklmnopqrstuvwxyz0123456789+/".toList

/-- Character at an index of a character list (out of range: `A`). -/
def nthChar : List Char → Nat → Char
  | [], _ => 'A'
  | c :: _, 0 => c
  | _ :: r, n + 1 => nthChar r n

/-- Sextet value to base64 character. -/
def sextetChar (n : Nat) : Char := nthChar base64Table n

/-- Index of a character in a character list (absent: past the end). -/
def idxOfChar : List Char → Char → Nat
  | [], _ => 0
  | x :: r, c => if x = c then 0 else idxOfChar r c + 1

/-- Base64 character back to its sextet value. -/
def charSextet (c : Char) : Nat := idxOfChar base64Table c

/-- Bytes to sextets, three bytes at a time (the core of `b64encode`). -/
def b64EncTriples : List Nat → List Nat
  | [] => []
  | [a] => [a / 4, a % 4 * 16]
  | [a, b] => [a / 4, a % 4 * 16 + b / 16, b % 16 * 4]
  | a :: b :: c :: r =>
    a / 4 :: (a % 4 * 16 + b / 16) :: (b % 16 * 4 + c / 64) :: c % 64 ::
      b64EncTriples r

/-- Sextets back to bytes, four sextets at a time (the core of
`b64decode`). -/
def b64DecQuads : List Nat → List Nat
  | [x, y] => [x * 4 + y / 16]
  | [x, y, z] => [x * 4 + y / 16, y % 16 * 16 + z / 4]
  | x :: y :: z :: w :: r =>
    (x * 4 + y / 16) :: (y % 16 * 16 + z / 4) :: (z % 4 * 64 + w) ::
      b64DecQuads r
  | _ => []

/-- Padding of `b64encode` determined by the byte count modulo 3. -/
def b64Pad : Nat → List Char
  | 1 => ['=', '=']
  | 2 => ['=']
  | _ => []

/-- `base64.b64encode` over a byte list. -/
def base64EncodeBytes (bs : List Nat) : List Char :=
  (b64EncTriples bs).map sextetChar ++ b64Pad (bs.length % 3)

/-- `base64.b64decode` over a character list. -/
def base64DecodeChars (cs : List Char) : List Nat :=
  b64DecQuads ((cs.filter (fun c => c != '=')).map charSextet)

/-- `base64.b64decode` of a string, as used on the fetched public key. -/
def base64DecodeStr (s : String) : List Nat := base64DecodeChars s.data

/-- Modelled from the spec: one keystream byte of the sealed box, derived
from the recipient public key and the ephemeral key material (the script
delegates this to PyNaCl `SealedBox`, whose code is outside the
repository; the spec's contract is an anonymous public-key encryption
with fresh ephemeral key material per call). -/
def streamByte (pk eph : List Nat) (i : Nat) : Nat :=
  (pk.getD (i % 32) 0 + eph.getD (i % 32) 0) % 256

/-- Modelled from the spec: the keystream encryption of the sealed-box
payload. -/
def streamEnc (pk eph : List Nat) : Nat → List Nat → List Nat
  | _, [] => []
  | i, b :: r => (b + streamByte pk eph i) % 256 :: streamEnc pk eph (i + 1) r

/-- Modelled from the spec: the keystream decryption of the sealed-box
payload. -/
def streamDec (pk eph : List Nat) : Nat → List Nat → List Nat
  | _, [] => []
  | i, b :: r =>
    (b + 256 - streamByte pk eph i) % 256 :: streamDec pk eph (i + 1) r

/-- Modelled from the spec: sealing a message to a public key with 32
bytes of fresh ephemeral key material; the ephemeral public part is
carried in front of the encrypted payload, as in the libsodium sealed-box
framing. -/
def sealedBoxSeal (pkBytes m eph : List Nat) : List Nat :=
  eph ++ streamEnc pkBytes eph 0 m

/-- Modelled from the spec: the recipient's sealed-box opening — read the
ephemeral key material from the front and decrypt the payload. -/
def sealedBoxOpen (pkBytes ct : List Nat) : List Nat :=
  streamDec pkBytes (ct.take 32) 0 (ct.drop 32)

/-- `encrypt_secret` from the script: base64-decode the public key, seal
the UTF-8 plaintext to it, and base64-encode the ciphertext. -/
def encrypt_secret (public_key secret_value : String) (eph : List Nat) :
    String :=
  String.mk (base64EncodeBytes
    (sealedBoxSeal (base64DecodeStr public_key) (utf8Bytes secret_value) eph))

/-- The provider-side decryption of an uploaded secret: base64-decode the
ciphertext and open the sealed box. -/
def decryptSecret (pkBytes : List Nat) (ciphertext : String) : List Nat :=
  sealedBoxOpen pkBytes (base64DecodeChars ciphertext.data)

/-! ## The run model: environment, events, and `main` -/

/-- What reading a token file yields once it exists: the open/`json.load`
raising (caught by the outer handler), parsing to something without the
shape of an object of string fields, or a parsed JSON object (modelled as
its field list, enough for this script which only looks up and re-dumps
it). -/
inductive TokenRead
  | unreadable
  | badJson
  | parsed (obj : List (String × String))
deriving DecidableEq

/-- The `{key, key_id}` structure returned by the public-key endpoint. -/
structure PubKey where
  key : String
  keyId : String
deriving DecidableEq

/-- Observable events of a run, in program order: public-key GET, a call of
`encrypt_secret`, secret PUT, per-secret success report, the final
both-secrets report, printing the plaintext token in the manual
instructions, and the migration write / warning. -/
inductive Ev
  | getKey (repo : String)
  | encryptEv (publicKey : String) (plaintext : String)
  | put (repo : String) (name : String) (encryptedValue : String) (keyId : String)
  | putSuccess (name : String)
  | bothSuccess
  | printToken (token : String)
  | migrated (obj : List (String × String)) (mode : Nat)
  | warnMigrate
deriving DecidableEq

/-- The environment a run executes against: the two candidate token files
(`none` = file does not exist), whether the migration write and the
`chmod` succeed, the file mode resulting when `chmod` fails, the state of
`config.ini`, the response of the public-key endpoint (`none` = HTTP
failure / unparseable body, one value since the remote key is stable
within a run), acceptance of the two PUTs, and the ephemeral randomness
the sealed box draws in each of the two `encrypt_secret` calls. -/
structure World where
  newToken : Option TokenRead
  legacyToken : Option TokenRead
  migrationWriteOk : Bool
  chmodOk : Bool
  defaultMode : Nat
  config : ConfigState
  keyResponse : Option PubKey
  putOk1 : Bool
  putOk2 : Bool
  eph1 : List Nat
  eph2 : List Nat

/-- Result of a run: the process exit code, the event trace, and the
migration write to `~/.gamecache/token.json` (content and final mode) when
one happened. -/
structure RunResult where
  exit : Nat
  trace : List Ev
  migrationWrite : Option (List (String × String) × Nat)
deriving DecidableEq

/-- `get_repo_public_key`: an authenticated GET of the public-key endpoint;
raises (here: `none`) when the call fails or has no parseable body. -/
def get_repo_public_key (repo : String) (keyResponse : Option PubKey) :
    List Ev × Option PubKey :=
  ([Ev.getKey repo], keyResponse)

/-- `show_manual_instructions`: prints the plaintext token with the manual
setup steps. -/
def show_manual_instructions (token : String) : List Ev :=
  [Ev.printToken token]

/-- `create_github_secret`: fetch the public key (raising on failure, the
`false` branch), encrypt the value against it with fresh ephemeral
randomness, PUT the `{encrypted_value, key_id}` payload, and report
success; an HTTP error of the PUT raises (`false`). -/
def create_github_secret (repo token secret_name secret_value : String)
    (keyResponse : Option PubKey) (putOk : Bool) (eph : List Nat) :
    List Ev × Bool :=
  match get_repo_public_key repo keyResponse with
  | (fetchEvs, none) => (fetchEvs, false)
  | (fetchEvs, some pk) =>
    let encrypted := encrypt_secret pk.key secret_value eph
    let evs := fetchEvs ++
      [Ev.encryptEv pk.key secret_value,
       Ev.put repo secret_name encrypted pk.keyId]
    if putOk then (evs ++ [Ev.putSuccess secret_name], true) else (evs, false)

/-- Token-file choice of `main`: the preferred `~/.gamecache/token.json` if
it exists, else the legacy `~/.mybgg/token.json`; the Bool records whether
the legacy file was the one used. -/
def chooseToken (w : World) : Option (TokenRead × Bool) :=
  match w.newToken with
  | some t => some (t, false)
  | none =>
    match w.legacyToken with
    | some t => some (t, true)
    | none => none

/-- The one-time migration block of `main`: when the token was read from
the legacy path, write it to the preferred path (`json.dump` of the same
parsed value) and `chmod 0o600`; a failing `chmod` is swallowed, a failing
write only prints a warning. -/
def migrationStep (w : World) (obj : List (String × String))
    (usedLegacy : Bool) :
    List Ev × Option (List (String × String) × Nat) :=
  if usedLegacy then
    if w.migrationWriteOk then
      let mode := if w.chmodOk then 0o600 else w.defaultMode
      ([Ev.migrated obj mode], some (obj, mode))
    else ([Ev.warnMigrate], none)
  else ([], none)

/-- The secret-creation block of `main`: create `GAMECACHE_GITHUB_TOKEN`
then `MYBGG_GITHUB_TOKEN`, both carrying the token itself as value; the
first raise falls through to the manual instructions. -/
def uploadPhase (w : World) (repo token : String) : List Ev :=
  match create_github_secret repo token "GAMECACHE_GITHUB_TOKEN" token
      w.keyResponse w.putOk1 w.eph1 with
  | (t1, false) => t1 ++ show_manual_instructions token
  | (t1, true) =>
    match create_github_secret repo token "MYBGG_GITHUB_TOKEN" token
        w.keyResponse w.putOk2 w.eph2 with
    | (t2, false) => t1 ++ t2 ++ show_manual_instructions token
    | (t2, true) => t1 ++ t2 ++ [Ev.bothSuccess]

namespace Script

/-- `main` of the script over a `World`.  Exit 1: no token file, unreadable
or unparseable token file, or a token file without `access_token`
(`sys.exit(1)` is a `SystemExit`, which the `except Exception` handler does
not catch).  Otherwise the run completes with exit 0: migration (legacy
case), then config resolution, then either the two uploads or the manual
instructions. -/
def main (w : World) : RunResult :=
  match chooseToken w with
  | none => ⟨1, [], none⟩
  | some (.unreadable, _) => ⟨1, [], none⟩
  | some (.badJson, _) => ⟨1, [], none⟩
  | some (.parsed obj, usedLegacy) =>
    match obj.lookup "access_token" with
    | none => ⟨1, [], none⟩
    | some token =>
      let m := migrationStep w obj usedLegacy
      match get_repo_from_config w.config with
      | none => ⟨0, m.1 ++ show_manual_instructions token, m.2⟩
      | some repo => ⟨0, m.1 ++ uploadPhase w repo token, m.2⟩

end Script

/-- The network calls in a trace (GETs of the public key and PUTs of
secrets). -/
def netEvents : List Ev → List Ev
  | [] => []
  | Ev.getKey r :: t => Ev.getKey r :: netEvents t
  | Ev.put r n v k :: t => Ev.put r n v k :: netEvents t
  | _ :: t => netEvents t

/-- Number of public-key fetches in a trace. -/
def fetchCount : List Ev → Nat
  | [] => 0
  | Ev.getKey _ :: t => fetchCount t + 1
  | _ :: t => fetchCount t

/-- Whether the chosen token file resolves to a usable bearer token: some
file exists, parses as a JSON object, and carries `access_token`. -/
def tokenResolved (w : World) : Bool :=
  match chooseToken w with
  | some (.parsed obj, _) => (obj.lookup "access_token").isSome
  | _ => false

/-! ## Concrete environments used by counterexamples and witnesses -/

/-- A run in which everything succeeds: preferred token file present with a
token, config resolving `alice/games`, key endpoint answering, both PUTs
accepted. -/
def c1World : World :=
  { newToken := some (.parsed [("access_token", "tok")])
    legacyToken := none
    migrationWriteOk := true
    chmodOk := true
    defaultMode := 0o644
    config := .content "github_repo = alice/games"
    keyResponse := some ⟨"S0VZS0VZ", "kid1"⟩
    putOk1 := true
    putOk2 := true
    eph1 := List.replicate 32 0
    eph2 := 1 :: List.replicate 31 0 }

/-- A run with no token file at either path. -/
def c2World : World :=
  { newToken := none
    legacyToken := none
    migrationWriteOk := true
    chmodOk := true
    defaultMode := 0o644
    config := .absent
    keyResponse := none
    putOk1 := true
    putOk2 := true
    eph1 := []
    eph2 := [] }

/-- A run reading the token from the legacy path only. -/
def c3World : World :=
  { newToken := none
    legacyToken := some (.parsed [("access_token", "tok")])
    migrationWriteOk := true
    chmodOk := true
    defaultMode := 0o644
    config := .absent
    keyResponse := none
    putOk1 := true
    putOk2 := true
    eph1 := []
    eph2 := [] }

/-- A run in which the public-key fetch fails. -/
def c5World : World :=
  { newToken := some (.parsed [("access_token", "tok")])
    legacyToken := none
    migrationWriteOk := true
    chmodOk := true
    defaultMode := 0o644
    config := .content "github_repo = alice/games"
    keyResponse := none
    putOk1 := true
    putOk2 := true
    eph1 := []
    eph2 := [] }

/-- A fully successful run, for the happy-path claim. -/
def c7World : World :=
  { newToken := some (.parsed [("access_token", "tok")])
    legacyToken := none
    migrationWriteOk := true
    chmodOk := true
    defaultMode := 0o644
    config := .content "github_repo = alice/games"
    keyResponse := some ⟨"S0VZS0VZ", "kid1"⟩
    putOk1 := true
    putOk2 := true
    eph1 := List.replicate 32 0
    eph2 := 1 :: List.replicate 31 0 }

/-! ## Helper lemmas -/

/-- Valid code points stay below 2^21-ish; in particular each is below
1114112. -/
theorem char_toNat_lt (c : Char) : c.toNat < 1114112 := by
  rcases c with ⟨v, h⟩
  simp [UInt32.isValidChar, Nat.isValidChar] at h
  simp [Char.toNat]
  rcases h with h | ⟨h1, h2⟩ <;> omega

/-- UTF-8 encoding of a valid code point produces bytes. -/
theorem utf8EncodeChar_lt {n : Nat} (hn : n < 1114112) :
    ∀ b ∈ utf8EncodeChar n, b < 256 := by
  intro b hb
  simp only [utf8EncodeChar] at hb
  split at hb
  · simp at hb; omega
  · split at hb
    · simp at hb; rcases hb with rfl | rfl <;> omega
    · split at hb
      · simp at hb; rcases hb with rfl | rfl | rfl <;> omega
      · simp at hb; rcases hb with rfl | rfl | rfl | rfl <;> omega

/-- UTF-8 encoding of a character list produces bytes. -/
theorem utf8List_lt : ∀ (l : List Char), ∀ b ∈ utf8List l, b < 256
  | [] => by simp [utf8List]
  | c :: r => by
    intro b hb
    simp only [utf8List, List.mem_append] at hb
    rcases hb with hb | hb
    · exact utf8EncodeChar_lt (char_toNat_lt c) b hb
    · exact utf8List_lt r b hb

/-- UTF-8 encoding of a string produces bytes. -/
theorem utf8Bytes_lt (s : String) : ∀ b ∈ utf8Bytes s, b < 256 :=
  utf8List_lt s.data

/-- The keystream encryption produces bytes. -/
theorem streamEnc_lt (pk e : List Nat) :
    ∀ (i : Nat) (m : List Nat), ∀ b ∈ streamEnc pk e i m, b < 256
  | _, [] => by simp [streamEnc]
  | i, b0 :: r => by
    intro b hb
    simp only [streamEnc, List.mem_cons] at hb
    rcases hb with rfl | hb
    · exact Nat.mod_lt _ (by omega)
    · exact streamEnc_lt pk e (i + 1) r b hb

/-- Keystream decryption inverts keystream encryption on byte lists. -/
theorem stream_roundtrip (pk e : List Nat) :
    ∀ (i : Nat) (m : List Nat), (∀ b ∈ m, b < 256) →
      streamDec pk e i (streamEnc pk e i m) = m
  | _, [], _ => rfl
  | i, b :: r, h => by
    have hb : b < 256 := h b (by simp)
    have hk : streamByte pk e i < 256 := Nat.mod_lt _ (by omega)
    simp only [streamEnc, streamDec]
    rw [stream_roundtrip pk e (i + 1) r (fun x hx => h x (by simp [hx]))]
    simp only [List.cons.injEq]
    refine ⟨?_, trivial⟩
    generalize streamByte pk e i = k at hk
    omega

/-- Base64 sextets of a byte list are below 64. -/
theorem b64EncTriples_lt64 : ∀ (bs : List Nat), (∀ b ∈ bs, b < 256) →
    ∀ x ∈ b64EncTriples bs, x < 64
  | [], _ => by simp [b64EncTriples]
  | [a], h => by
    have ha : a < 256 := h a (by simp)
    intro x hx
    simp only [b64EncTriples] at hx
    simp at hx
    rcases hx with rfl | rfl <;> omega
  | [a, b], h => by
    have ha : a < 256 := h a (by simp)
    have hb : b < 256 := h b (by simp)
    intro x hx
    simp only [b64EncTriples] at hx
    simp at hx
    rcases hx with rfl | rfl | rfl <;> omega
  | a :: b :: c :: r, h => by
    have ha : a < 256 := h a (by simp)
    have hb : b < 256 := h b (by simp)
    have hc : c < 256 := h c (by simp)
    intro x hx
    simp only [b64EncTriples, List.mem_cons] at hx
    rcases hx with rfl | rfl | rfl | rfl | hx
    · omega
    · omega
    · omega
    · omega
    · exact b64EncTriples_lt64 r (fun y hy => h y (by simp [hy])) x hx

/-- Sextet decoding inverts sextet encoding on byte lists. -/
theorem b64_roundtrip : ∀ (bs : List Nat), (∀ b ∈ bs, b < 256) →
    b64DecQuads (b64EncTriples bs) = bs
  | [], _ => rfl
  | [a], h => by
    have ha : a < 256 := h a (by simp)
    simp only [b64EncTriples, b64DecQuads, List.cons.injEq]
    exact ⟨by omega, trivial⟩
  | [a, b], h => by
    have ha : a < 256 := h a (by simp)
    have hb : b < 256 := h b (by simp)
    simp only [b64EncTriples, b64DecQuads, List.cons.injEq]
    exact ⟨by omega, by omega, trivial⟩
  | a :: b :: c :: r, h => by
    have ha : a < 256 := h a (by simp)
    have hb : b < 256 := h b (by simp)
    have hc : c < 256 := h c (by simp)
    simp only [b64EncTriples, b64DecQuads, List.cons.injEq]
    refine ⟨by omega, by omega, by omega,
      b64_roundtrip r (fun y hy => h y (by simp [hy]))⟩

/-- Indexing a list free of a character never yields it. -/
theorem nthChar_ne_pad : ∀ (l : List Char), (∀ c ∈ l, c ≠ '=') →
    ∀ n, nthChar l n ≠ '='
  | [], _, _ => by simp [nthChar]
  | c :: _, h, 0 => h c (by simp)
  | _ :: r, h, n + 1 => nthChar_ne_pad r (fun x hx => h x (by simp [hx])) n

/-- The base64 alphabet has no padding character. -/
theorem base64Table_ne_pad : ∀ c ∈ base64Table, c ≠ '=' := by decide

/-- No sextet encodes to the padding character. -/
theorem sextetChar_ne_pad (n : Nat) : sextetChar n ≠ '=' :=
  nthChar_ne_pad base64Table base64Table_ne_pad n

/-- The character of a sextet decodes back to the sextet. -/
theorem charSextet_sextetChar :
    ∀ n : Fin 64, charSextet (sextetChar n.val) = n.val := by
  decide

/-- Mapping sextets to characters and back is the identity. -/
theorem map_sextet_roundtrip : ∀ (xs : List Nat), (∀ x ∈ xs, x < 64) →
    (xs.map sextetChar).map charSextet = xs
  | [], _ => rfl
  | x :: r, h => by
    have hx : x < 64 := h x (by simp)
    simp only [List.map_cons, List.cons.injEq]
    exact ⟨charSextet_sextetChar ⟨x, hx⟩,
      map_sextet_roundtrip r (fun y hy => h y (by simp [hy]))⟩

/-- Base64 decoding inverts base64 encoding on byte lists. -/
theorem base64_roundtrip (bs : List Nat) (h : ∀ b ∈ bs, b < 256) :
    base64DecodeChars (base64EncodeBytes bs) = bs := by
  unfold base64EncodeBytes base64DecodeChars
  rw [List.filter_append]
  have h1 : ((b64EncTriples bs).map sextetChar).filter (fun c => c != '=') =
      (b64EncTriples bs).map sextetChar := by
    rw [List.filter_eq_self]
    intro c hc
    rcases List.mem_map.mp hc with ⟨x, _, rfl⟩
    simpa using sextetChar_ne_pad x
  have h3 : bs.length % 3 = 0 ∨ bs.length % 3 = 1 ∨ bs.length % 3 = 2 := by
    omega
  have h2 : (b64Pad (bs.length % 3)).filter (fun c => c != '=') = [] := by
    rcases h3 with h3 | h3 | h3 <;> rw [h3] <;> rfl
  rw [h1, h2, List.append_nil,
    map_sextet_roundtrip _ (b64EncTriples_lt64 bs h), b64_roundtrip bs h]

/-- A sealed box over byte-valued ephemeral key material is a byte list. -/
theorem sealedBoxSeal_lt (pk m e : List Nat) (he : ∀ b ∈ e, b < 256) :
    ∀ b ∈ sealedBoxSeal pk m e, b < 256 := by
  intro b hb
  simp only [sealedBoxSeal, List.mem_append] at hb
  rcases hb with hb | hb
  · exact he b hb
  · exact streamEnc_lt pk e 0 m b hb

/-- Opening a sealed box recovers the plaintext bytes. -/
theorem sealedBox_roundtrip (pk m e : List Nat) (he : e.length = 32)
    (hm : ∀ b ∈ m, b < 256) :
    sealedBoxOpen pk (sealedBoxSeal pk m e) = m := by
  unfold sealedBoxSeal sealedBoxOpen
  rw [← he, List.take_left, List.drop_left]
  exact stream_roundtrip pk e 0 m hm

/-- `netEvents` distributes over concatenation. -/
theorem netEvents_append : ∀ (a b : List Ev),
    netEvents (a ++ b) = netEvents a ++ netEvents b
  | [], _ => rfl
  | e :: r, b => by
    have ih := netEvents_append r b
    cases e <;> simp [netEvents, ih]

/-- `fetchCount` distributes over concatenation. -/
theorem fetchCount_append : ∀ (a b : List Ev),
    fetchCount (a ++ b) = fetchCount a + fetchCount b
  | [], _ => by simp [fetchCount]
  | e :: r, b => by
    have ih := fetchCount_append r b
    cases e <;> simp [fetchCount, ih] <;> omega

/-- The migration block makes no network call. -/
theorem netEvents_mig (w : World) (obj : List (String × String)) (ul : Bool) :
    netEvents (migrationStep w obj ul).1 = [] := by
  cases ul <;> cases hw : w.migrationWriteOk <;>
    simp [migrationStep, hw, netEvents]

/-- The migration block fetches no public key. -/
theorem fetchCount_mig (w : World) (obj : List (String × String)) (ul : Bool) :
    fetchCount (migrationStep w obj ul).1 = 0 := by
  cases ul <;> cases hw : w.migrationWriteOk <;>
    simp [migrationStep, hw, fetchCount]

/-! ## Claims -/

/-- C1 (counterexample): a run in which both secrets are uploaded
successfully fetches the repository public key twice, not exactly once —
`create_github_secret` fetches the key on every call and `main` calls it
once per secret. -/
theorem c1_public_key_refetched_counterexample :
    Ev.putSuccess "GAMECACHE_GITHUB_TOKEN" ∈ (Script.main c1World).trace ∧
    Ev.putSuccess "MYBGG_GITHUB_TOKEN" ∈ (Script.main c1World).trace ∧
    fetchCount (Script.main c1World).trace ≠ 1 := by
  refine ⟨by decide, by decide, by decide⟩

/-- C1 (amended): in every run in which both secrets are uploaded, the
public key is fetched exactly once per secret (twice in total), and since
the remote key is stable within the run, both secrets are encrypted
against the same key material (key, key_id) — the very key material the
stable endpoint returns. -/
theorem c1_two_fetches_same_key_material (w : World)
    (obj : List (String × String)) (ul : Bool) (tok repo : String)
    (pk : PubKey)
    (hct : chooseToken w = some (.parsed obj, ul))
    (hl : obj.lookup "access_token" = some tok)
    (hr : get_repo_from_config w.config = some repo)
    (hk : w.keyResponse = some pk)
    (hp1 : w.putOk1 = true) (hp2 : w.putOk2 = true) :
    fetchCount (Script.main w).trace = 2 ∧
    Ev.encryptEv pk.key tok ∈ (Script.main w).trace ∧
    Ev.put repo "GAMECACHE_GITHUB_TOKEN" (encrypt_secret pk.key tok w.eph1)
      pk.keyId ∈ (Script.main w).trace ∧
    Ev.put repo "MYBGG_GITHUB_TOKEN" (encrypt_secret pk.key tok w.eph2)
      pk.keyId ∈ (Script.main w).trace := by
  simp [Script.main, hct, hl, hr, uploadPhase, create_github_secret,
    get_repo_public_key, hk, hp1, hp2, fetchCount_append, fetchCount_mig,
    fetchCount]

/-- C1 witness: the amended statement instantiated on a concrete fully
successful run. -/
theorem c1_two_fetches_same_key_material_witness :
    fetchCount (Script.main c1World).trace = 2 ∧
    Ev.encryptEv "S0VZS0VZ" "tok" ∈ (Script.main c1World).trace ∧
    Ev.put "alice/games" "GAMECACHE_GITHUB_TOKEN"
      (encrypt_secret "S0VZS0VZ" "tok" (List.replicate 32 0)) "kid1" ∈
      (Script.main c1World).trace ∧
    Ev.put "alice/games" "MYBGG_GITHUB_TOKEN"
      (encrypt_secret "S0VZS0VZ" "tok" (1 :: List.replicate 31 0)) "kid1" ∈
      (Script.main c1World).trace :=
  c1_two_fetches_same_key_material c1World [("access_token", "tok")] false
    "tok" "alice/games" ⟨"S0VZS0VZ", "kid1"⟩ rfl rfl (by decide) rfl rfl rfl

/-- C2: when neither the preferred nor the legacy token file exists, the
process exits with status 1 and the trace is empty — in particular no
network call is made. -/
theorem c2_no_token_exits_one_no_network (w : World)
    (h1 : w.newToken = none) (h2 : w.legacyToken = none) :
    (Script.main w).exit = 1 ∧ (Script.main w).trace = [] := by
  simp [Script.main, chooseToken, h1, h2]

/-- C2 witness: the statement on a concrete empty filesystem. -/
theorem c2_no_token_exits_one_no_network_witness :
    (c2World.newToken = none ∧ c2World.legacyToken = none) ∧
    (Script.main c2World).exit = 1 ∧ (Script.main c2World).trace = [] :=
  ⟨⟨rfl, rfl⟩, c2_no_token_exits_one_no_network c2World rfl rfl⟩

/-- C3: when the token is read from the legacy file and the migration write
and chmod succeed, the preferred file is written with the very JSON value
read from the legacy file and mode 0o600; and whatever the outcome of the
migration (write failure, chmod failure), the run still completes with
exit 0 and performs the same network calls. -/
theorem c3_legacy_migration (w : World) (obj : List (String × String))
    (tok : String)
    (h1 : w.newToken = none) (h2 : w.legacyToken = some (.parsed obj))
    (hl : obj.lookup "access_token" = some tok)
    (hw : w.migrationWriteOk = true) (hc : w.chmodOk = true) :
    (Script.main w).migrationWrite = some (obj, 0o600) ∧
    (Script.main w).exit = 0 ∧
    (∀ b c : Bool,
      (Script.main { w with migrationWriteOk := b, chmodOk := c }).exit = 0 ∧
      netEvents (Script.main
        { w with migrationWriteOk := b, chmodOk := c }).trace =
        netEvents (Script.main w).trace) := by
  refine ⟨?_, ?_, ?_⟩
  · rcases hr : get_repo_from_config w.config with _ | repo <;>
      simp [Script.main, chooseToken, h1, h2, hl, migrationStep, hw, hc, hr]
  · rcases hr : get_repo_from_config w.config with _ | repo <;>
      simp [Script.main, chooseToken, h1, h2, hl, hr]
  · intro b c
    rcases hr : get_repo_from_config w.config with _ | repo <;>
      simp [Script.main, chooseToken, h1, h2, hl, hr, netEvents_append,
        netEvents_mig, netEvents, show_manual_instructions] <;> rfl

/-- C3 witness: the statement on a concrete legacy-only filesystem. -/
theorem c3_legacy_migration_witness :
    (c3World.newToken = none ∧
     c3World.legacyToken = some (.parsed [("access_token", "tok")]) ∧
     c3World.migrationWriteOk = true ∧ c3World.chmodOk = true) ∧
    (Script.main c3World).migrationWrite =
      some ([("access_token", "tok")], 0o600) ∧
    (Script.main c3World).exit = 0 ∧
    (∀ b c : Bool,
      (Script.main
        { c3World with migrationWriteOk := b, chmodOk := c }).exit = 0 ∧
      netEvents (Script.main
        { c3World with migrationWriteOk := b, chmodOk := c }).trace =
        netEvents (Script.main c3World).trace) :=
  ⟨⟨rfl, rfl, rfl, rfl⟩,
   c3_legacy_migration c3World [("access_token", "tok")] "tok"
     rfl rfl (by decide) rfl rfl⟩

/-- C4: target resolution — the quoted value is returned with whitespace
and quotes stripped; an absent file, an absent key, and the placeholder
(quoted or not) all resolve to `none`. -/
theorem c4_target_resolution :
    get_repo_from_config (.content "github_repo = \"alice/games\"") =
      some "alice/games" ∧
    get_repo_from_config .absent = none ∧
    get_repo_from_config (.content "project = games\nother = 1") = none ∧
    get_repo_from_config
      (.content "github_repo = YOUR_GITHUB_USERNAME/gamecache") = none ∧
    get_repo_from_config
      (.content "github_repo = \"YOUR_GITHUB_USERNAME/gamecache\"") = none := by
  refine ⟨by decide, rfl, by decide, by decide, by decide⟩

/-- C5: when the public-key fetch fails, the run still exits 0, the trace
is exactly the failed GET followed by the manual instructions carrying the
plaintext token — no PUT and no encryption occur. -/
theorem c5_key_fetch_failure_fallback (w : World)
    (obj : List (String × String)) (tok repo : String)
    (h1 : w.newToken = some (.parsed obj))
    (hl : obj.lookup "access_token" = some tok)
    (hr : get_repo_from_config w.config = some repo)
    (hk : w.keyResponse = none) :
    (Script.main w).exit = 0 ∧
    (Script.main w).trace = [Ev.getKey repo, Ev.printToken tok] ∧
    (∀ r n v k, Ev.put r n v k ∉ (Script.main w).trace) ∧
    (∀ pk s, Ev.encryptEv pk s ∉ (Script.main w).trace) ∧
    Ev.printToken tok ∈ (Script.main w).trace := by
  have ht : (Script.main w).trace = [Ev.getKey repo, Ev.printToken tok] := by
    simp [Script.main, chooseToken, h1, hl, hr, migrationStep, uploadPhase,
      create_github_secret, get_repo_public_key, hk, show_manual_instructions]
  have he : (Script.main w).exit = 0 := by
    simp [Script.main, chooseToken, h1, hl, hr]
  refine ⟨he, ht, ?_, ?_, ?_⟩ <;> rw [ht] <;> simp

/-- C5 witness: the statement on a concrete run with a failing key
endpoint. -/
theorem c5_key_fetch_failure_fallback_witness :
    (c5World.keyResponse = none ∧
     get_repo_from_config c5World.config = some "alice/games") ∧
    (Script.main c5World).exit = 0 ∧
    (Script.main c5World).trace =
      [Ev.getKey "alice/games", Ev.printToken "tok"] ∧
    (∀ r n v k, Ev.put r n v k ∉ (Script.main c5World).trace) ∧
    (∀ pk s, Ev.encryptEv pk s ∉ (Script.main c5World).trace) ∧
    Ev.printToken "tok" ∈ (Script.main c5World).trace :=
  ⟨⟨rfl, by decide⟩,
   c5_key_fetch_failure_fallback c5World [("access_token", "tok")] "tok"
     "alice/games" rfl rfl (by decide) rfl⟩

/-- C6: the exit code is 0 exactly when a usable token was resolved (any
completed run, including the manual-fallback paths), and 1 otherwise (no
token file, unreadable or unparseable token file, or a token file without
`access_token`). -/
theorem c6_exit_codes (w : World) :
    (Script.main w).exit = if tokenResolved w then 0 else 1 := by
  unfold Script.main tokenResolved
  rcases h : chooseToken w with _ | ⟨tr, ul⟩
  · simp [h]
  · cases tr with
    | unreadable => simp [h]
    | badJson => simp [h]
    | parsed obj =>
      rcases hl : obj.lookup "access_token" with _ | tok
      · simp [h, hl]
      · rcases hr : get_repo_from_config w.config with _ | repo <;>
          simp [h, hl, hr]

/-- C7: the happy path — config resolves, the key endpoint answers, both
PUTs are accepted: the run exits 0, reports success for both secret names,
and the two uploaded payloads are encryptions of the same plaintext token
under the same key. -/
theorem c7_happy_path_both_secrets (w : World)
    (obj : List (String × String)) (ul : Bool) (tok repo : String)
    (pk : PubKey)
    (hct : chooseToken w = some (.parsed obj, ul))
    (hl : obj.lookup "access_token" = some tok)
    (hr : get_repo_from_config w.config = some repo)
    (hk : w.keyResponse = some pk)
    (hp1 : w.putOk1 = true) (hp2 : w.putOk2 = true) :
    (Script.main w).exit = 0 ∧
    Ev.putSuccess "GAMECACHE_GITHUB_TOKEN" ∈ (Script.main w).trace ∧
    Ev.putSuccess "MYBGG_GITHUB_TOKEN" ∈ (Script.main w).trace ∧
    Ev.put repo "GAMECACHE_GITHUB_TOKEN" (encrypt_secret pk.key tok w.eph1)
      pk.keyId ∈ (Script.main w).trace ∧
    Ev.put repo "MYBGG_GITHUB_TOKEN" (encrypt_secret pk.key tok w.eph2)
      pk.keyId ∈ (Script.main w).trace := by
  simp [Script.main, hct, hl, hr, uploadPhase, create_github_secret,
    get_repo_public_key, hk, hp1, hp2]

/-- C7 witness: the statement on a concrete fully successful run. -/
theorem c7_happy_path_both_secrets_witness :
    (chooseToken c7World = some (.parsed [("access_token", "tok")], false) ∧
     get_repo_from_config c7World.config = some "alice/games" ∧
     c7World.keyResponse = some ⟨"S0VZS0VZ", "kid1"⟩) ∧
    (Script.main c7World).exit = 0 ∧
    Ev.putSuccess "GAMECACHE_GITHUB_TOKEN" ∈ (Script.main c7World).trace ∧
    Ev.putSuccess "MYBGG_GITHUB_TOKEN" ∈ (Script.main c7World).trace ∧
    Ev.put "alice/games" "GAMECACHE_GITHUB_TOKEN"
      (encrypt_secret "S0VZS0VZ" "tok" (List.replicate 32 0)) "kid1" ∈
      (Script.main c7World).trace ∧
    Ev.put "alice/games" "MYBGG_GITHUB_TOKEN"
      (encrypt_secret "S0VZS0VZ" "tok" (1 :: List.replicate 31 0)) "kid1" ∈
      (Script.main c7World).trace :=
  ⟨⟨rfl, by decide, rfl⟩,
   c7_happy_path_both_secrets c7World [("access_token", "tok")] false "tok"
     "alice/games" ⟨"S0VZS0VZ", "kid1"⟩ rfl rfl (by decide) rfl rfl rfl⟩

/-- C8: sealed-box encryption of the same plaintext against the same public
key with two distinct draws of the 32-byte ephemeral key material yields
two different base64 ciphertexts, and the holder of the private key
decrypts both to the same plaintext bytes. -/
theorem c8_sealed_box_randomized_encryption (pk s : String)
    (e1 e2 : List Nat)
    (h1 : e1.length = 32) (h2 : e2.length = 32)
    (hb1 : ∀ b ∈ e1, b < 256) (hb2 : ∀ b ∈ e2, b < 256)
    (hne : e1 ≠ e2) :
    encrypt_secret pk s e1 ≠ encrypt_secret pk s e2 ∧
    decryptSecret (base64DecodeStr pk) (encrypt_secret pk s e1) =
      utf8Bytes s ∧
    decryptSecret (base64DecodeStr pk) (encrypt_secret pk s e2) =
      utf8Bytes s := by
  refine ⟨?_, ?_, ?_⟩
  · intro heq
    unfold encrypt_secret at heq
    have hdata := congrArg String.data heq
    simp only [String.data] at hdata
    have hct := congrArg base64DecodeChars hdata
    rw [base64_roundtrip _ (sealedBoxSeal_lt _ _ _ hb1),
        base64_roundtrip _ (sealedBoxSeal_lt _ _ _ hb2)] at hct
    unfold sealedBoxSeal at hct
    exact hne (List.append_inj hct (by omega)).1
  · unfold encrypt_secret decryptSecret
    rw [show (String.mk (base64EncodeBytes (sealedBoxSeal
      (base64DecodeStr pk) (utf8Bytes s) e1))).data = base64EncodeBytes
      (sealedBoxSeal (base64DecodeStr pk) (utf8Bytes s) e1) from rfl]
    rw [base64_roundtrip _ (sealedBoxSeal_lt _ _ _ hb1)]
    exact sealedBox_roundtrip _ _ _ h1 (utf8Bytes_lt s)
  · unfold encrypt_secret decryptSecret
    rw [show (String.mk (base64EncodeBytes (sealedBoxSeal
      (base64DecodeStr pk) (utf8Bytes s) e2))).data = base64EncodeBytes
      (sealedBoxSeal (base64DecodeStr pk) (utf8Bytes s) e2) from rfl]
    rw [base64_roundtrip _ (sealedBoxSeal_lt _ _ _ hb2)]
    exact sealedBox_roundtrip _ _ _ h2 (utf8Bytes_lt s)

/-- C8 witness: the statement on concrete key, plaintext, and two concrete
distinct ephemeral draws. -/
theorem c8_sealed_box_randomized_encryption_witness :
    ((List.replicate 32 0 : List Nat).length = 32 ∧
     (1 :: List.replicate 31 0 : List Nat).length = 32 ∧
     (List.replicate 32 0 : List Nat) ≠ 1 :: List.replicate 31 0) ∧
    encrypt_secret "S0VZS0VZ" "tok" (List.replicate 32 0) ≠
      encrypt_secret "S0VZS0VZ" "tok" (1 :: List.replicate 31 0) ∧
    decryptSecret (base64DecodeStr "S0VZS0VZ")
      (encrypt_secret "S0VZS0VZ" "tok" (List.replicate 32 0)) =
      utf8Bytes "tok" ∧
    decryptSecret (base64DecodeStr "S0VZS0VZ")
      (encrypt_secret "S0VZS0VZ" "tok" (1 :: List.replicate 31 0)) =
      utf8Bytes "tok" :=
  ⟨⟨by decide, by decide, by decide⟩,
   c8_sealed_box_randomized_encryption "S0VZS0VZ" "tok" _ _
     (by decide) (by decide) (by decide) (by decide) (by decide)⟩

/-- C9: target resolution is total — on every filesystem state it returns
`none` or a repository string (it cannot raise), and in particular a file
that fails to open or read resolves to `none`. -/
theorem c9_resolution_never_raises :
    (∀ cfg, get_repo_from_config cfg = none ∨
      ∃ r, get_repo_from_config cfg = some r) ∧
    get_repo_from_config ConfigState.unreadable = none ∧
    get_repo_from_config ConfigState.absent = none := by
  refine ⟨fun cfg => ?_, rfl, rfl⟩
  rcases h : get_repo_from_config cfg with _ | r
  · exact Or.inl rfl
  · exact Or.inr ⟨r, rfl⟩

/-- C10: key matching is by prefix of the stripped line — a longer key such
as `github_repository` is accepted — and a matching line whose value is
accepted ends the scan with that value, while a rejected value (empty or
placeholder) lets the scan continue to a later matching line. -/
theorem c10_key_matching_and_scan_continuation :
    get_repo_from_config (.content "github_repository = \"x/y\"") =
      some "x/y" ∧
    (∀ ln rest p,
      startsWithKey "github_repo".toList (stripChars isSpaceChar ln) = true →
      splitFirstEq (stripChars isSpaceChar ln) = some p →
      stripChars isQuoteChar (stripChars isSpaceChar p.2) ≠ [] →
      stripChars isQuoteChar (stripChars isSpaceChar p.2) ≠ repoPlaceholder →
      scanLines (ln :: rest) =
        some (stripChars isQuoteChar (stripChars isSpaceChar p.2))) ∧
    (∀ rest, scanLines
      ("github_repo = YOUR_GITHUB_USERNAME/gamecache".toList :: rest) =
      scanLines rest) ∧
    (∀ rest, scanLines ("github_repo =".toList :: rest) = scanLines rest) ∧
    get_repo_from_config (.content
      "github_repo = YOUR_GITHUB_USERNAME/gamecache\ngithub_repo =\ngithub_repo = alice/games") =
      some "alice/games" := by
  refine ⟨rfl, ?_, fun rest => rfl, fun rest => rfl, rfl⟩
  intro ln rest p hs hsp hne hnp
  rcases p with ⟨k, v⟩
  simp at hs
  simp [scanLines, hs, hsp, hne, hnp]

/-- C10 witness: the general acceptance clause instantiated on a concrete
line with a longer key and no surrounding spaces. -/
theorem c10_key_matching_and_scan_continuation_witness :
    scanLines ("github_repoX=alice/x".toList :: []) =
      some (stripChars isQuoteChar (stripChars isSpaceChar
        "alice/x".toList)) :=
  c10_key_matching_and_scan_continuation.2.1 "github_repoX=alice/x".toList []
    ("github_repoX".toList, "alice/x".toList)
    (by decide) (by decide) (by decide) (by decide)
